import Mathlib

/-!
Shallow embedding of a small C/C++-like lexical analyzer and structural
validator, together with proofs about its behavior.

The development models two tokenizers and one validator:

* `ParserTask`: a line-by-line lexer (`Lexer.tokenize`) driven by an ordered
  list of anchored patterns, plus a validator (`Parser.parse`) that runs an
  unknown-token scan, a delimiter-balance scan and a statement-termination
  scan over the comment-filtered token stream.
* `ScannerTask`: a single-pass tokenizer driven by one combined alternation
  of named groups, tried left to right at each position.

Regular expressions of the source are hand-translated into executable
matching functions over `List Char`; each matcher returns the length of the
match (the matched text is the corresponding prefix of the remaining input).
-/

namespace ParserTask

/-- ASCII digit, as matched by the `\d` class. -/
def isDigitChar (c : Char) : Bool := '0' ≤ c ∧ c ≤ '9'

/-- ASCII word character, as matched by the `\w` class: letter, digit or underscore. -/
def isWordChar (c : Char) : Bool :=
  ('a' ≤ c ∧ c ≤ 'z') ∨ ('A' ≤ c ∧ c ≤ 'Z') ∨ ('0' ≤ c ∧ c ≤ '9') ∨ c = '_'

/-- ASCII letter or underscore: the first character of an identifier. -/
def isIdentStart (c : Char) : Bool :=
  ('a' ≤ c ∧ c ≤ 'z') ∨ ('A' ≤ c ∧ c ≤ 'Z') ∨ c = '_'

/-- Whitespace, as matched by the `\s` class. -/
def isSpaceChar (c : Char) : Bool :=
  c = ' ' ∨ c = '\t' ∨ c = '\n' ∨ c = '\r' ∨ c = '\x0b' ∨ c = '\x0c'

/-- Member of the operator character class `[+\-*/%=!<>&|^~]`. -/
def isOpChar (c : Char) : Bool :=
  c = '+' ∨ c = '-' ∨ c = '*' ∨ c = '/' ∨ c = '%' ∨ c = '=' ∨ c = '!' ∨
  c = '<' ∨ c = '>' ∨ c = '&' ∨ c = '|' ∨ c = '^' ∨ c = '~'

/-- The token kinds of `TokenType` in `parserTask.py`. -/
inductive TokenType where
  | KEYWORD | DATATYPE | IDENTIFIER | NUMBER | STRING | CHAR | OPERATOR
  | SEMICOLON | COMMA | LPAREN | RPAREN | LBRACE | RBRACE | LBRACKET | RBRACKET
  | PREPROCESSOR | COMMENT | WHITESPACE | UNKNOWN
deriving DecidableEq, Repr

/-- A token: kind, matched text, 1-based line, 1-based column (as constructed
by `Lexer.tokenize`, which passes `line_num` from `enumerate(lines, 1)` and
`col + 1`). -/
structure Token where
  type : TokenType
  value : List Char
  line : Nat
  col : Nat
deriving DecidableEq, Repr

/-- The static keyword vocabulary `Lexer.keywords`. -/
def keywords : List (List Char) :=
  ["auto", "break", "case", "char", "const", "continue", "default",
   "do", "double", "else", "enum", "extern", "float", "for", "goto",
   "if", "int", "long", "register", "return", "short", "signed",
   "sizeof", "static", "struct", "switch", "typedef", "union",
   "unsigned", "void", "volatile", "while", "class", "namespace",
   "using", "public", "private", "protected", "virtual", "bool",
   "true", "false", "new", "delete", "this", "try", "catch", "throw"
  ].map String.toList

/-- The static datatype vocabulary `Lexer.datatypes`. -/
def datatypes : List (List Char) :=
  ["int", "float", "double", "char", "void", "long", "short",
   "unsigned", "signed", "bool", "string"].map String.toList

/-- The static operator vocabulary `Lexer.operators` (consulted by no code
path of `tokenize`; kept because it is part of the Lexer's state). -/
def operators : List (List Char) :=
  ["+", "-", "*", "/", "%", "=", "==", "!=", "<", ">", "<=", ">=",
   "&&", "||", "!", "&", "|", "^", "~", "<<", ">>", "++", "--",
   "+=", "-=", "*=", "/=", "%=", "&=", "|=", "^=", "->", ".", "::"
  ].map String.toList

/-- Length of the maximal digit run at the head of the input. -/
def countDigits : List Char → Nat
  | [] => 0
  | c :: r => if isDigitChar c then countDigits r + 1 else 0

/-- Length of the maximal whitespace run at the head of the input. -/
def countSpaces : List Char → Nat
  | [] => 0
  | c :: r => if isSpaceChar c then countSpaces r + 1 else 0

/-- Whether a `\b` word boundary holds between a last consumed character of
word-character status `lastWord` and the rest of the input. -/
def boundaryAfter (lastWord : Bool) : List Char → Bool
  | [] => lastWord
  | c :: _ => lastWord != isWordChar c

/-- Pattern `#\s*\w+.*`: a `#`, optional whitespace, at least one word
character, then the rest of the line.  Matches the whole remaining line. -/
def matchPreprocLen (s : List Char) : Option Nat :=
  match s with
  | '#' :: r =>
    match r.drop (countSpaces r) with
    | c :: _ => if isWordChar c then some s.length else none
    | [] => none
  | _ => none

/-- Pattern `//.*`: a line comment, matching the rest of the line. -/
def matchLineCommentLen (s : List Char) : Option Nat :=
  match s with
  | '/' :: '/' :: _ => some s.length
  | _ => none

/-- Length up to and including the first `*/` in the input (`[\s\S]*?\*/`). -/
def findCloseLen : List Char → Option Nat
  | [] => none
  | '*' :: '/' :: _ => some 2
  | _ :: r => (findCloseLen r).map (· + 1)

/-- Pattern `/\*[\s\S]*?\*/`: a block comment closed in the same input. -/
def matchBlockCommentLen (s : List Char) : Option Nat :=
  match s with
  | '/' :: '*' :: r => (findCloseLen r).map (· + 2)
  | _ => none

/-- Body of a string literal after the opening quote: repetition of
`[^"\\]|\\.` followed by the closing quote; returns the length including the
closing quote. -/
def stringBodyLen : List Char → Option Nat
  | [] => none
  | '"' :: _ => some 1
  | '\\' :: [] => none
  | '\\' :: _ :: r => (stringBodyLen r).map (· + 2)
  | _ :: r => (stringBodyLen r).map (· + 1)

/-- Pattern `"(?:[^"\\]|\\.)*"`: a string literal. -/
def matchStringLen (s : List Char) : Option Nat :=
  match s with
  | '"' :: r => (stringBodyLen r).map (· + 1)
  | _ => none

/-- Pattern `'(?:[^'\\]|\\.)'`: a character literal of one (possibly escaped)
character. -/
def matchCharLen (s : List Char) : Option Nat :=
  match s with
  | '\'' :: '\\' :: _ :: '\'' :: _ => some 4
  | '\'' :: '\\' :: _ => none
  | '\'' :: '\'' :: _ => none
  | '\'' :: _ :: '\'' :: _ => some 3
  | _ => none

/-- Exponent group `[eE][+-]?\d+`: returns its length when it matches. -/
def matchExpLen (s : List Char) : Option Nat :=
  match s with
  | c :: r =>
    if c = 'e' ∨ c = 'E' then
      let signLen : Nat :=
        match r with
        | d :: _ => if d = '+' ∨ d = '-' then 1 else 0
        | [] => 0
      let nd := countDigits (r.drop signLen)
      if nd = 0 then none else some (1 + signLen + nd)
    else none
  | [] => none

/-- Pattern `\b\d+\.?\d*([eE][+-]?\d+)?\b` with Python `re` backtracking
semantics.  The greedy attempt takes maximal digits, an optional dot, maximal
fraction digits and an optional exponent; when the trailing `\b` fails the
engine backtracks the exponent, then the fraction digits, then the dot.  The
cases below are the residue of that search. -/
def matchNumberLen (s : List Char) : Option Nat :=
  let d1 := countDigits s
  if d1 = 0 then none else
  match s.drop d1 with
  | '.' :: r1 =>
    let d2 := countDigits r1
    let r2 := r1.drop d2
    match matchExpLen r2 with
    | some el =>
      if boundaryAfter true (r2.drop el) then some (d1 + 1 + d2 + el)
      else some (d1 + 1)
    | none =>
      if d2 ≠ 0 then
        if boundaryAfter true r2 then some (d1 + 1 + d2) else some (d1 + 1)
      else
        if boundaryAfter false r2 then some (d1 + 1) else some d1
  | r1 =>
    match matchExpLen r1 with
    | some el => if boundaryAfter true (r1.drop el) then some (d1 + el) else none
    | none => if boundaryAfter true r1 then some d1 else none

/-- Pattern `\b[a-zA-Z_][a-zA-Z0-9_]*\b`: a maximal word-character run
starting with a letter or underscore (both boundaries always hold there). -/
def matchIdentLen (s : List Char) : Option Nat :=
  match s with
  | c :: r => if isIdentStart c then some (1 + countWord r) else none
  | [] => none
where
  /-- Length of the maximal word-character run. -/
  countWord : List Char → Nat
    | [] => 0
    | c :: r => if isWordChar c then countWord r + 1 else 0

/-- Pattern `[+\-*/%=!<>&|^~]{1,2}`: greedily two operator-class characters,
else one. -/
def matchOpLen (s : List Char) : Option Nat :=
  match s with
  | c1 :: c2 :: _ =>
    if isOpChar c1 then (if isOpChar c2 then some 2 else some 1) else none
  | c1 :: [] => if isOpChar c1 then some 1 else none
  | [] => none

/-- Pattern `::`. -/
def matchColonsLen (s : List Char) : Option Nat :=
  match s with
  | ':' :: ':' :: _ => some 2
  | _ => none

/-- Pattern `->` (in practice shadowed by the operator-class pattern). -/
def matchArrowLen (s : List Char) : Option Nat :=
  match s with
  | '-' :: '>' :: _ => some 2
  | _ => none

/-- A single given character. -/
def matchLitLen (lit : Char) (s : List Char) : Option Nat :=
  match s with
  | c :: _ => if c = lit then some 1 else none
  | [] => none

/-- Pattern `\s+`: a maximal nonempty whitespace run. -/
def matchWsLen (s : List Char) : Option Nat :=
  let n := countSpaces s
  if n = 0 then none else some n

/-- `Lexer.token_patterns`: the ordered list of pattern-to-kind rules. -/
def tokenPatterns : List ((List Char → Option Nat) × TokenType) :=
  [(matchPreprocLen, TokenType.PREPROCESSOR),
   (matchLineCommentLen, TokenType.COMMENT),
   (matchBlockCommentLen, TokenType.COMMENT),
   (matchStringLen, TokenType.STRING),
   (matchCharLen, TokenType.CHAR),
   (matchNumberLen, TokenType.NUMBER),
   (matchIdentLen, TokenType.IDENTIFIER),
   (matchOpLen, TokenType.OPERATOR),
   (matchColonsLen, TokenType.OPERATOR),
   (matchArrowLen, TokenType.OPERATOR),
   (matchLitLen ';', TokenType.SEMICOLON),
   (matchLitLen ',', TokenType.COMMA),
   (matchLitLen '(', TokenType.LPAREN),
   (matchLitLen ')', TokenType.RPAREN),
   (matchLitLen '\x7b', TokenType.LBRACE),
   (matchLitLen '\x7d', TokenType.RBRACE),
   (matchLitLen '[', TokenType.LBRACKET),
   (matchLitLen ']', TokenType.RBRACKET),
   (matchWsLen, TokenType.WHITESPACE)]

/-- The `for pattern, token_type in self.token_patterns` loop: the first
pattern that matches at the head of the input wins. -/
def firstMatch : List ((List Char → Option Nat) × TokenType) → List Char →
    Option (Nat × TokenType)
  | [], _ => none
  | (m, ty) :: rest, s =>
    match m s with
    | some n => some (n, ty)
    | none => firstMatch rest s

/-- The ordered pattern dispatch of `Lexer.tokenize`: returns the match
length and the pattern's token type (before keyword reclassification). -/
def matchAt (s : List Char) : Option (Nat × TokenType) :=
  firstMatch tokenPatterns s

/-- Reclassification step of `tokenize`: an `IDENTIFIER` found in the keyword
or datatype vocabulary becomes a `KEYWORD`. -/
def classify (ty : TokenType) (value : List Char) : TokenType :=
  if ty = TokenType.IDENTIFIER ∧ (value ∈ keywords ∨ value ∈ datatypes)
  then TokenType.KEYWORD else ty

/-- The inner scan of `Lexer.tokenize` over one physical line: at each column
try the patterns in order; emit the matched token (whitespace is skipped) and
advance by the match length; on no match emit a one-character `UNKNOWN` token
and advance by one. -/
def lexLine (lineNum : Nat) (col : Nat) (s : List Char) : List Token :=
  match s with
  | [] => []
  | c :: rest =>
    match matchAt (c :: rest) with
    | some (n, ty) =>
      let value := (c :: rest).take n
      let ty' := classify ty value
      let tail := lexLine lineNum (col + n) (rest.drop (n - 1))
      if ty' = TokenType.WHITESPACE then tail
      else ⟨ty', value, lineNum, col + 1⟩ :: tail
    | none => ⟨TokenType.UNKNOWN, [c], lineNum, col + 1⟩ :: lexLine lineNum (col + 1) rest
termination_by s.length
decreasing_by
  · simp only [List.length_drop, List.length_cons]
    omega
  · simp

/-- The consumed chunks of the scan of one line, in order, each paired with
whether the scan emitted a token for it (`false` exactly for skipped
whitespace runs).  Follows the same recursion as `lexLine`. -/
def lexChunks (s : List Char) : List (List Char × Bool) :=
  match s with
  | c :: rest =>
    match matchAt (c :: rest) with
    | some (n, ty) =>
      ((c :: rest).take n, decide (classify ty ((c :: rest).take n) ≠ TokenType.WHITESPACE))
        :: lexChunks (rest.drop (n - 1))
    | none => ([c], true) :: lexChunks rest
  | [] => []
termination_by s.length
decreasing_by
  · simp only [List.length_drop, List.length_cons]
    omega
  · simp

/-- `code.split('\n')`: split into physical lines at each newline, keeping
empty parts. -/
def splitLines : List Char → List (List Char)
  | [] => [[]]
  | c :: r =>
    match splitLines r with
    | l :: ls => if c = '\n' then [] :: l :: ls else (c :: l) :: ls
    | [] => [[c]]

/-- Rejoin physical lines with newlines (left inverse of `splitLines`). -/
def joinLines : List (List Char) → List Char
  | [] => []
  | [l] => l
  | l :: ls => l ++ '\n' :: joinLines ls

/-- The outer loop of `Lexer.tokenize`: lex each line with its 1-based line
number, concatenating the results. -/
def lexLines : Nat → List (List Char) → List Token
  | _, [] => []
  | n, l :: ls => lexLine n 0 l ++ lexLines (n + 1) ls

/-- `Lexer.tokenize`: split the input at newlines and lex line by line. -/
def tokenize (code : List Char) : List Token :=
  lexLines 1 (splitLines code)

/-- A diagnostic of `Parser`, carrying exactly the data interpolated into the
corresponding message string of `parserTask.py`. -/
inductive Diag where
  /-- `Unknown token value at line line, col col`. -/
  | unknownToken (value : List Char) (line col : Nat)
  /-- `Unmatched closing delimiter value at line line`. -/
  | unmatchedClosing (value : List Char) (line : Nat)
  /-- `Mismatched delimiters: openValue at line openLine and closeValue at line closeLine`. -/
  | mismatched (openValue : List Char) (openLine : Nat) (closeValue : List Char) (closeLine : Nat)
  /-- `Unclosed delimiter value at line line`. -/
  | unclosed (value : List Char) (line : Nat)
  /-- `Missing semicolon after kw statement at line line`. -/
  | missingSemicolon (kw : List Char) (line : Nat)
deriving DecidableEq, Repr

/-- The comment filter of `Parser.__init__`: `[t for t in tokens if t.type != COMMENT]`. -/
def removeComments (ts : List Token) : List Token :=
  ts.filter (fun t => t.type ≠ TokenType.COMMENT)

/-- The unknown-token scan of `Parser.parse`: one diagnostic per `UNKNOWN` token. -/
def unknownScan (ts : List Token) : List Diag :=
  ts.filterMap (fun t =>
    if t.type = TokenType.UNKNOWN then some (Diag.unknownToken t.value t.line t.col) else none)

/-- The `pairs` mapping of `check_balanced_delimiters`: opener kind to its
expected closer kind. -/
def pairsClose : TokenType → Option TokenType
  | TokenType.LPAREN => some TokenType.RPAREN
  | TokenType.LBRACE => some TokenType.RBRACE
  | TokenType.LBRACKET => some TokenType.RBRACKET
  | _ => none

/-- `token.type in pairs`: the token is an opening delimiter. -/
def isOpening (ty : TokenType) : Bool :=
  ty = TokenType.LPAREN ∨ ty = TokenType.LBRACE ∨ ty = TokenType.LBRACKET

/-- `token.type in pairs.values()`: the token is a closing delimiter. -/
def isClosing (ty : TokenType) : Bool :=
  ty = TokenType.RPAREN ∨ ty = TokenType.RBRACE ∨ ty = TokenType.RBRACKET

/-- One iteration of the delimiter loop: the accumulator is the error list so
far together with the stack (top at the head). -/
def balStep (acc : List Diag × List (TokenType × Token)) (t : Token) :
    List Diag × List (TokenType × Token) :=
  let (errs, stack) := acc
  if isOpening t.type then (errs, (t.type, t) :: stack)
  else if isClosing t.type then
    match stack with
    | [] => (errs ++ [Diag.unmatchedClosing t.value t.line], [])
    | (openType, openTok) :: rest =>
      if pairsClose openType ≠ some t.type then
        (errs ++ [Diag.mismatched openTok.value openTok.line t.value t.line], rest)
      else (errs, rest)
  else acc

/-- `Parser.check_balanced_delimiters`: a single pass with a stack, then one
`unclosed` diagnostic per remaining stack entry, iterated from the base of
the stack (the Python list is iterated oldest-first). -/
def check_balanced_delimiters (ts : List Token) : List Diag :=
  let (errs, stack) := ts.foldl balStep ([], [])
  errs ++ stack.reverse.map (fun p => Diag.unclosed p.2.value p.2.line)

/-- The keyword set `{return, break, continue}` of `check_statement_structure`. -/
def stmtKeywords : List (List Char) :=
  ["return", "break", "continue"].map String.toList

/-- The inner `while` loop of `check_statement_structure`: walk forward until
the first `SEMICOLON`, `LBRACE` or `RBRACE` token and report its kind;
`none` when the token stream is exhausted first. -/
def findStop : List Token → Option TokenType
  | [] => none
  | t :: r =>
    if t.type = TokenType.SEMICOLON ∨ t.type = TokenType.LBRACE ∨ t.type = TokenType.RBRACE
    then some t.type else findStop r

/-- `Parser.check_statement_structure`: for each `return`/`break`/`continue`
keyword, scan forward; a diagnostic is recorded exactly when no semicolon was
found, the scan stopped inside the stream (`j < len`) and the stopping token
is not an `LBRACE`. -/
def check_statement_structure : List Token → List Diag
  | [] => []
  | t :: rest =>
    if t.type = TokenType.PREPROCESSOR then check_statement_structure rest
    else if t.type = TokenType.KEYWORD ∧ t.value ∈ stmtKeywords then
      (match findStop rest with
       | some stopTy =>
         if stopTy ≠ TokenType.SEMICOLON ∧ stopTy ≠ TokenType.LBRACE
         then [Diag.missingSemicolon t.value t.line] else []
       | none => []) ++ check_statement_structure rest
    else check_statement_structure rest

/-- The diagnostic list accumulated by `Parser.parse`: the three passes run
over the comment-filtered tokens, concatenated in their fixed order. -/
def parseErrors (tokens : List Token) : List Diag :=
  let ts := removeComments tokens
  unknownScan ts ++ check_balanced_delimiters ts ++ check_statement_structure ts

/-- `Parser.parse` packaged as the spec's `validate`: the boolean verdict
(`len(self.errors) == 0`) together with the diagnostics. -/
def validate (tokens : List Token) : Bool × List Diag :=
  (parseErrors tokens = [], parseErrors tokens)

/-- The delimiter balance scan as the specification words it: a single-pass
stack algorithm — push an opener; a closer against an empty stack is an
unmatched-closing diagnostic; a closer whose family does not match the popped
opener is a mismatched-delimiters diagnostic naming both locations; after the
scan every remaining stack entry yields one unclosed-delimiter diagnostic,
oldest opener (base of the stack) first. -/
def specDelimScan : List Token → List (TokenType × Token) → List Diag
  | [], stack => stack.reverse.map (fun p => Diag.unclosed p.2.value p.2.line)
  | t :: ts, stack =>
    if isOpening t.type then specDelimScan ts ((t.type, t) :: stack)
    else if isClosing t.type then
      match stack with
      | [] => Diag.unmatchedClosing t.value t.line :: specDelimScan ts []
      | (openType, openTok) :: rest =>
        if pairsClose openType ≠ some t.type then
          Diag.mismatched openTok.value openTok.line t.value t.line :: specDelimScan ts rest
        else specDelimScan ts rest
    else specDelimScan ts stack

end ParserTask

namespace ScannerTask

/-- The named groups of `TOKEN_SPECIFICATIONS` in `scannerTask.py`, in their
listed order. -/
inductive SType where
  | Comments | Character_constants | Special_characters | Numeric_constants
  | Operators | Identifiers | Keywords | NEWLINE | SKIP | MISMATCH
deriving DecidableEq, Repr

/-- A token of `scannerTask.py`: group name, matched text, line number and
column (`match.start() - line_start`, an offset from the most recent
newline's end — 0-based). -/
structure SToken where
  type : SType
  value : List Char
  line : Nat
  column : Nat
deriving DecidableEq, Repr

/-- Group `Comments`, alternative `//.*?$`: with `re.MULTILINE` the lazy run
stops at the first end of line, so the match reaches the next newline (not
consuming it) or the end of input. -/
def lineCommentLen : List Char → Nat
  | [] => 0
  | c :: r => if c = '\n' then 0 else lineCommentLen r + 1

/-- Length up to and including the first `*/` (with `re.DOTALL` the lazy run
crosses newlines). -/
def findCloseLen : List Char → Option Nat
  | [] => none
  | '*' :: '/' :: _ => some 2
  | _ :: r => (findCloseLen r).map (· + 1)

/-- Group `Comments`: `//.*?$|/\*.*?\*/`. -/
def matchComments (s : List Char) : Option Nat :=
  match s with
  | '/' :: '/' :: r => some (2 + lineCommentLen r)
  | '/' :: '*' :: r => (findCloseLen r).map (· + 2)
  | _ => none

/-- Group `Character_constants`: `'.'` — a quote, any one character (DOTALL),
a quote. -/
def matchCharConst (s : List Char) : Option Nat :=
  match s with
  | '\'' :: _ :: '\'' :: _ => some 3
  | _ => none

/-- Group `Special_characters`: `[{}();]`. -/
def matchSpecial (s : List Char) : Option Nat :=
  match s with
  | c :: _ =>
    if c = '\x7b' ∨ c = '\x7d' ∨ c = '(' ∨ c = ')' ∨ c = ';' then some 1 else none
  | [] => none

/-- Length of the maximal digit run at the head of the input. -/
def countDigits : List Char → Nat
  | [] => 0
  | c :: r => if ParserTask.isDigitChar c then countDigits r + 1 else 0

/-- Group `Numeric_constants`: `\b\d+(\.\d+)?([eE][+-]?\d+)?\b` with Python
backtracking.  Differs from the parser task's pattern in that the fractional
group requires at least one digit after the dot; when the trailing `\b`
fails, backtracking drops the optional groups whole, leaving the bare
integer part (whose boundary against `.` or `e` then holds or fails as the
cases below record). -/
def matchNumeric (s : List Char) : Option Nat :=
  let d1 := countDigits s
  if d1 = 0 then none else
  let r1 := s.drop d1
  let frac : Option Nat :=
    match r1 with
    | '.' :: r' => let d2 := countDigits r'; if d2 = 0 then none else some (1 + d2)
    | _ => none
  match frac with
  | some fl =>
    let r2 := r1.drop fl
    (match ParserTask.matchExpLen r2 with
     | some el =>
       if ParserTask.boundaryAfter true (r2.drop el) then some (d1 + fl + el)
       else some d1
     | none =>
       if ParserTask.boundaryAfter true r2 then some (d1 + fl)
       else some d1)
  | none =>
    match ParserTask.matchExpLen r1 with
    | some el =>
      if ParserTask.boundaryAfter true (r1.drop el) then some (d1 + el) else none
    | none => if ParserTask.boundaryAfter true r1 then some d1 else none

/-- The literal alternatives of group `Operators`, in their listed order. -/
def opAlternatives : List (List Char) :=
  ["++", "--", "==", "!=", "<=", ">=", "<<=", ">>=", "+=", "-=", "*=", "/=",
   "%=", "&=", "|=", "^=", "<<", ">>", "->", "&&", "||", "::"].map String.toList

/-- Member of the class `[+\-*/%=&|^~<>!]`. -/
def isOpClassChar (c : Char) : Bool :=
  c = '+' ∨ c = '-' ∨ c = '*' ∨ c = '/' ∨ c = '%' ∨ c = '=' ∨ c = '&' ∨
  c = '|' ∨ c = '^' ∨ c = '~' ∨ c = '<' ∨ c = '>' ∨ c = '!'

/-- First literal alternative that is a prefix of the input. -/
def firstAlt (alts : List (List Char)) (s : List Char) : Option Nat :=
  match alts with
  | [] => none
  | a :: rest => if s.take a.length = a then some a.length else firstAlt rest s

/-- Group `Operators`: the literal alternatives in order, then
`[+\-*/%=&|^~<>!]=?` (a class character greedily followed by `=`); the later
alternatives `[<>]=?` and the bare class are subsumed by it. -/
def matchOperators (s : List Char) : Option Nat :=
  match firstAlt opAlternatives s with
  | some n => some n
  | none =>
    match s with
    | c1 :: rest =>
      if isOpClassChar c1 then
        match rest with
        | '=' :: _ => some 2
        | _ => some 1
      else none
    | [] => none

/-- Group `Identifiers`: `[a-zA-Z_]\w*`. -/
def matchIdentifiers (s : List Char) : Option Nat :=
  match s with
  | c :: r => if ParserTask.isIdentStart c then some (1 + countWord r) else none
  | [] => none
where
  /-- Length of the maximal word-character run. -/
  countWord : List Char → Nat
    | [] => 0
    | c :: r => if ParserTask.isWordChar c then countWord r + 1 else 0

/-- The keyword alternatives of group `Keywords`, in their listed order.
The group is dead code: `Identifiers` precedes it and matches every keyword. -/
def keywordAlternatives : List (List Char) :=
  ["if", "else", "switch", "case", "default", "while", "for", "do", "break",
   "continue", "goto", "int", "short", "long", "float", "double", "void",
   "bool", "char", "string", "signed", "unsigned", "auto", "const", "static",
   "new", "delete", "using", "namespace", "try", "throw", "catch", "class",
   "struct", "union", "public", "private", "protected", "friend", "this",
   "virtual", "return", "true", "false"].map String.toList

/-- Group `Keywords`: `\b(kw1|kw2|...)\b` — the first keyword that is a
prefix of the input and is followed by a word boundary. -/
def matchKeywords (s : List Char) : Option Nat :=
  go keywordAlternatives
where
  go : List (List Char) → Option Nat
    | [] => none
    | a :: rest =>
      if s.take a.length = a ∧ ParserTask.boundaryAfter true (s.drop a.length)
      then some a.length else go rest

/-- One match of the combined alternation at a nonempty position: the groups
are tried in their listed order and the first that matches wins
(`MISMATCH` = `.` with DOTALL always matches one character). -/
def scanMatchAt (c : Char) (rest : List Char) : Nat × SType :=
  let s := c :: rest
  match matchComments s with
  | some n => (n, SType.Comments)
  | none =>
  match matchCharConst s with
  | some n => (n, SType.Character_constants)
  | none =>
  match matchSpecial s with
  | some n => (n, SType.Special_characters)
  | none =>
  match matchNumeric s with
  | some n => (n, SType.Numeric_constants)
  | none =>
  match matchOperators s with
  | some n => (n, SType.Operators)
  | none =>
  match matchIdentifiers s with
  | some n => (n, SType.Identifiers)
  | none =>
  match matchKeywords s with
  | some n => (n, SType.Keywords)
  | none =>
  if c = '\n' then (1, SType.NEWLINE)
  else if c = ' ' ∨ c = '\t' then
    (1 + countTab rest, SType.SKIP)
  else (1, SType.MISMATCH)
where
  /-- Length of the maximal run of spaces and tabs (`[ \t]+`). -/
  countTab : List Char → Nat
    | [] => 0
    | c :: r => if c = ' ' ∨ c = '\t' then countTab r + 1 else 0

/-- The scanning loop of `tokenize` in `scannerTask.py`: repeatedly match at
the current position; `NEWLINE` advances the line counter and records the new
line start, `SKIP` and `MISMATCH` emit no token (`MISMATCH` only prints a
message), every other group emits a token whose column is
`match.start() - line_start`. -/
def scanGo (lineNum lineStart pos : Nat) : List Char → List SToken
  | [] => []
  | c :: rest =>
    let (n, g) := scanMatchAt c rest
    let value := (c :: rest).take n
    let tail := rest.drop (n - 1)
    match g with
    | SType.NEWLINE => scanGo (lineNum + 1) (pos + n) (pos + n) tail
    | SType.SKIP => scanGo lineNum lineStart (pos + n) tail
    | SType.MISMATCH => scanGo lineNum lineStart (pos + n) tail
    | _ => ⟨g, value, lineNum, pos - lineStart⟩ :: scanGo lineNum lineStart (pos + n) tail
termination_by s => s.length
decreasing_by
  all_goals simp only [List.length_drop, List.length_cons]; omega

/-- `tokenize` of `scannerTask.py`: scan from position 0, line 1, line start 0. -/
def tokenize (code : List Char) : List SToken :=
  scanGo 1 0 0 code

end ScannerTask

/-! ## Lemmas about the parser-task lexer -/

namespace ParserTask

theorem matchPreprocLen_pos {s : List Char} {n : Nat} (h : matchPreprocLen s = some n) :
    0 < n := by
  unfold matchPreprocLen at h
  split at h
  · split at h
    · split at h
      · simp only [Option.some.injEq] at h
        subst h
        simp
      · exact absurd h (by simp)
    · exact absurd h (by simp)
  · exact absurd h (by simp)

theorem matchLineCommentLen_pos {s : List Char} {n : Nat} (h : matchLineCommentLen s = some n) :
    0 < n := by
  unfold matchLineCommentLen at h
  split at h
  · simp only [Option.some.injEq] at h
    subst h
    simp
  · exact absurd h (by simp)

theorem matchBlockCommentLen_pos {s : List Char} {n : Nat} (h : matchBlockCommentLen s = some n) :
    0 < n := by
  unfold matchBlockCommentLen at h
  split at h
  · rcases Option.map_eq_some'.mp h with ⟨m, _, hm⟩
    omega
  · exact absurd h (by simp)

theorem matchStringLen_pos {s : List Char} {n : Nat} (h : matchStringLen s = some n) :
    0 < n := by
  unfold matchStringLen at h
  split at h
  · rcases Option.map_eq_some'.mp h with ⟨m, _, hm⟩
    omega
  · exact absurd h (by simp)

theorem matchCharLen_pos {s : List Char} {n : Nat} (h : matchCharLen s = some n) :
    0 < n := by
  unfold matchCharLen at h
  split at h <;> simp_all <;> omega

theorem matchNumberLen_pos {s : List Char} {n : Nat} (h : matchNumberLen s = some n) :
    0 < n := by
  simp only [matchNumberLen] at h
  split at h
  · simp at h
  · split at h <;> split at h <;> (try split at h) <;> (try split at h)
    all_goals (try simp_all)
    all_goals omega

theorem matchIdentLen_pos {s : List Char} {n : Nat} (h : matchIdentLen s = some n) :
    0 < n := by
  unfold matchIdentLen at h
  split at h
  · split at h
    · simp only [Option.some.injEq] at h
      omega
    · exact absurd h (by simp)
  · exact absurd h (by simp)

theorem matchOpLen_pos {s : List Char} {n : Nat} (h : matchOpLen s = some n) :
    0 < n := by
  unfold matchOpLen at h
  split at h <;> (try split at h) <;> (try split at h) <;> simp_all <;> omega

theorem matchColonsLen_pos {s : List Char} {n : Nat} (h : matchColonsLen s = some n) :
    0 < n := by
  unfold matchColonsLen at h
  split at h <;> simp_all <;> omega

theorem matchArrowLen_pos {s : List Char} {n : Nat} (h : matchArrowLen s = some n) :
    0 < n := by
  unfold matchArrowLen at h
  split at h <;> simp_all <;> omega

theorem matchLitLen_pos {lit : Char} {s : List Char} {n : Nat}
    (h : matchLitLen lit s = some n) : 0 < n := by
  unfold matchLitLen at h
  split at h
  · split at h <;> simp_all <;> omega
  · exact absurd h (by simp)

theorem matchWsLen_pos {s : List Char} {n : Nat} (h : matchWsLen s = some n) :
    0 < n := by
  simp only [matchWsLen] at h
  split at h
  · simp at h
  · simp only [Option.some.injEq] at h
    omega

/-- Any successful `firstMatch` outcome comes from some pattern of the list. -/
theorem firstMatch_spec :
    ∀ (ps : List ((List Char → Option Nat) × TokenType)) (s : List Char)
      (n : Nat) (ty : TokenType), firstMatch ps s = some (n, ty) →
      ∃ p ∈ ps, p.1 s = some n ∧ p.2 = ty := by
  intro ps
  induction ps with
  | nil => intro s n ty h; simp [firstMatch] at h
  | cons p rest ih =>
    intro s n ty h
    obtain ⟨m, pty⟩ := p
    unfold firstMatch at h
    split at h
    · rename_i k heq
      simp only [Option.some.injEq, Prod.mk.injEq] at h
      obtain ⟨rfl, rfl⟩ := h
      exact ⟨(m, pty), by simp, heq, rfl⟩
    · obtain ⟨q, hq, h1, h2⟩ := ih s n ty h
      exact ⟨q, by simp [hq], h1, h2⟩

/-- Every pattern of `tokenPatterns` consumes at least one character. -/
theorem tokenPatterns_pos :
    ∀ p ∈ tokenPatterns, ∀ (s : List Char) (n : Nat), p.1 s = some n → 0 < n := by
  intro p hp
  simp only [tokenPatterns, List.mem_cons, List.not_mem_nil, or_false] at hp
  rcases hp with rfl | rfl | rfl | rfl | rfl | rfl | rfl | rfl | rfl | rfl | rfl |
    rfl | rfl | rfl | rfl | rfl | rfl | rfl | rfl
  · exact fun s n h => matchPreprocLen_pos h
  · exact fun s n h => matchLineCommentLen_pos h
  · exact fun s n h => matchBlockCommentLen_pos h
  · exact fun s n h => matchStringLen_pos h
  · exact fun s n h => matchCharLen_pos h
  · exact fun s n h => matchNumberLen_pos h
  · exact fun s n h => matchIdentLen_pos h
  · exact fun s n h => matchOpLen_pos h
  · exact fun s n h => matchColonsLen_pos h
  · exact fun s n h => matchArrowLen_pos h
  · exact fun s n h => matchLitLen_pos h
  · exact fun s n h => matchLitLen_pos h
  · exact fun s n h => matchLitLen_pos h
  · exact fun s n h => matchLitLen_pos h
  · exact fun s n h => matchLitLen_pos h
  · exact fun s n h => matchLitLen_pos h
  · exact fun s n h => matchLitLen_pos h
  · exact fun s n h => matchLitLen_pos h
  · exact fun s n h => matchWsLen_pos h

/-- The dispatch consumes at least one character whenever it matches. -/
theorem matchAt_pos {s : List Char} {n : Nat} {ty : TokenType}
    (h : matchAt s = some (n, ty)) : 0 < n := by
  obtain ⟨p, hp, h1, _⟩ := firstMatch_spec tokenPatterns s n ty h
  exact tokenPatterns_pos p hp s n h1

end ParserTask

namespace ParserTask

/-- Consuming `n ≥ 1` characters splits a nonempty input into the matched
text and the remaining input. -/
theorem take_drop_cons (c : Char) (rest : List Char) {n : Nat} (hn : 0 < n) :
    (c :: rest).take n ++ rest.drop (n - 1) = c :: rest := by
  cases n with
  | zero => omega
  | succ m => simp [List.take_succ_cons, List.take_append_drop]

/-- Partition: the consumed chunks of a line concatenate back to the line —
no character of the input is dropped or duplicated by the scan. -/
theorem lexChunks_flatten (s : List Char) :
    ((lexChunks s).map Prod.fst).flatten = s := by
  induction s using lexChunks.induct with
  | case1 c tail n ty hmatch ih =>
    rw [lexChunks, hmatch]
    simp only [List.map_cons, List.flatten_cons, ih]
    exact take_drop_cons c tail (matchAt_pos hmatch)
  | case2 c tail hmatch ih =>
    rw [lexChunks, hmatch]
    simp only [List.map_cons, List.flatten_cons, ih, List.singleton_append]
  | case3 => simp [lexChunks]

/-- The emitted tokens carry exactly the non-skipped chunks, in order. -/
theorem lexLine_values (lineNum col : Nat) (s : List Char) :
    (lexLine lineNum col s).map Token.value =
      ((lexChunks s).filter Prod.snd).map Prod.fst := by
  induction s using lexChunks.induct generalizing col with
  | case1 c tail n ty hmatch ih =>
    rw [lexLine, lexChunks, hmatch]
    by_cases hws : classify ty ((c :: tail).take n) = TokenType.WHITESPACE
    · simp [hws, ih]
    · simp [hws, ih]
  | case2 c tail hmatch ih =>
    rw [lexLine, lexChunks, hmatch]
    simp [ih]
  | case3 => simp [lexLine, lexChunks]

/-- `classify` can only produce `WHITESPACE` from `WHITESPACE`. -/
theorem classify_ws {ty : TokenType} {v : List Char}
    (h : classify ty v = TokenType.WHITESPACE) : ty = TokenType.WHITESPACE := by
  unfold classify at h
  split at h
  · exact absurd h (by decide)
  · exact h

/-- A `WHITESPACE` outcome of the dispatch comes from the whitespace pattern. -/
theorem matchAt_ws {s : List Char} {n : Nat}
    (h : matchAt s = some (n, TokenType.WHITESPACE)) : matchWsLen s = some n := by
  obtain ⟨p, hp, h1, h2⟩ := firstMatch_spec tokenPatterns s n _ h
  simp only [tokenPatterns, List.mem_cons, List.not_mem_nil, or_false] at hp
  rcases hp with rfl | rfl | rfl | rfl | rfl | rfl | rfl | rfl | rfl | rfl | rfl |
    rfl | rfl | rfl | rfl | rfl | rfl | rfl | rfl
  all_goals first
  | exact h1
  | exact absurd h2 (by decide)

/-- The prefix counted by `countSpaces` consists of whitespace characters. -/
theorem countSpaces_all (s : List Char) : (s.take (countSpaces s)).all isSpaceChar := by
  induction s with
  | nil => simp
  | cons c r ih =>
    by_cases hc : isSpaceChar c
    · simpa [countSpaces, hc, List.take_succ_cons] using ih
    · simp [countSpaces, hc]

/-- Every chunk the scan consumed without emitting a token is a whitespace
run: non-whitespace characters are never silently skipped. -/
theorem lexChunks_skip (s : List Char) :
    ∀ ch : List Char, (ch, false) ∈ lexChunks s → ch.all isSpaceChar := by
  induction s using lexChunks.induct with
  | case1 c tail n ty hmatch ih =>
    intro ch hch
    rw [lexChunks, hmatch] at hch
    rcases List.mem_cons.mp hch with hhead | htail
    · have h1 : ch = (c :: tail).take n := congrArg Prod.fst hhead
      have h2 : decide (classify ty ((c :: tail).take n) ≠ TokenType.WHITESPACE) = false :=
        (congrArg Prod.snd hhead).symm
      have hty : ty = TokenType.WHITESPACE := by
        have h3 : classify ty ((c :: tail).take n) = TokenType.WHITESPACE := by
          simpa using h2
        exact classify_ws h3
      subst hty
      have hws := matchAt_ws hmatch
      have hn : n = countSpaces (c :: tail) := by
        simp only [matchWsLen] at hws
        split at hws
        · simp at hws
        · simpa using hws.symm
      subst h1
      rw [hn]
      exact countSpaces_all (c :: tail)
    · exact ih ch htail
  | case2 c tail hmatch ih =>
    intro ch hch
    rw [lexChunks, hmatch] at hch
    rcases List.mem_cons.mp hch with hhead | htail
    · exact absurd (congrArg Prod.snd hhead) (by simp)
    · exact ih ch htail
  | case3 => intro ch hch; simp [lexChunks] at hch

/-- On input matching no pattern, the scan emits a one-character `UNKNOWN`
token and advances by exactly one character. -/
theorem lexLine_unmatched (lineNum col : Nat) (c : Char) (rest : List Char)
    (h : matchAt (c :: rest) = none) :
    lexLine lineNum col (c :: rest) =
      ⟨TokenType.UNKNOWN, [c], lineNum, col + 1⟩ :: lexLine lineNum (col + 1) rest := by
  rw [lexLine, h]

/-- `splitLines` never returns an empty list of lines. -/
theorem splitLines_ne_nil (code : List Char) : splitLines code ≠ [] := by
  cases code with
  | nil => simp [splitLines]
  | cons c r =>
    unfold splitLines
    split <;> (try split) <;> simp

/-- Rejoining the physical lines of `splitLines` restores the input. -/
theorem joinLines_splitLines (code : List Char) :
    joinLines (splitLines code) = code := by
  induction code with
  | nil => rfl
  | cons c r ih =>
    cases hs : splitLines r with
    | nil => exact absurd hs (splitLines_ne_nil r)
    | cons l ls =>
      rw [hs] at ih
      have hsplit : splitLines (c :: r) =
          if c = '\n' then [] :: l :: ls else (c :: l) :: ls := by
        unfold splitLines
        rw [hs]
      rw [hsplit]
      by_cases hc : c = '\n'
      · subst hc
        simp only [if_pos rfl]
        cases ls <;> simp [joinLines] at ih ⊢ <;> simp [ih]
      · rw [if_neg hc]
        cases ls with
        | nil =>
          simp only [joinLines] at ih ⊢
          rw [ih]
        | cons l2 ls2 =>
          simp only [joinLines, List.cons_append] at ih ⊢
          rw [ih]

end ParserTask

namespace ParserTask

/-- Taking a prefix is idempotent in its own length. -/
theorem take_length_take (s : List Char) (n : Nat) :
    s.take ((s.take n).length) = s.take n := by
  rw [List.take_eq_take, List.length_take]
  omega

/-- Location invariant of the line scan: when the remaining input is the
suffix of `line` starting at 0-based column `col`, every emitted token lies
on line `lineNum`, has a 1-based column of at least `col + 1`, and its text
is found in `line` at the 0-based offset `t.col - 1`. -/
theorem lexLine_meta (lineNum : Nat) (line : List Char) :
    ∀ (s : List Char) (col : Nat), line.drop col = s →
    ∀ t ∈ lexLine lineNum col s, t.line = lineNum ∧ col + 1 ≤ t.col ∧
      t.value = (line.drop (t.col - 1)).take t.value.length := by
  intro s
  induction s using lexChunks.induct with
  | case1 c tail n ty hmatch ih =>
    intro col hs t ht
    have hpos := matchAt_pos hmatch
    have hdrop : line.drop (col + n) = tail.drop (n - 1) := by
      rw [← List.drop_drop, hs]
      cases n with
      | zero => omega
      | succ m => simp [List.drop_succ_cons]
    rw [lexLine, hmatch] at ht
    dsimp only at ht
    have hmem :
        t = (⟨classify ty ((c :: tail).take n), (c :: tail).take n, lineNum, col + 1⟩ : Token) ∨
        t ∈ lexLine lineNum (col + n) (tail.drop (n - 1)) := by
      by_cases hws : classify ty ((c :: tail).take n) = TokenType.WHITESPACE
      · simp only [hws, if_pos rfl] at ht
        exact Or.inr ht
      · rw [if_neg hws] at ht
        exact List.mem_cons.mp ht
    rcases hmem with rfl | hrec
    · refine ⟨rfl, Nat.le_refl _, ?_⟩
      show (c :: tail).take n = (line.drop (col + 1 - 1)).take ((c :: tail).take n).length
      rw [Nat.add_sub_cancel, hs]
      exact (take_length_take (c :: tail) n).symm
    · obtain ⟨h1, h2, h3⟩ := ih (col + n) hdrop t hrec
      exact ⟨h1, by omega, h3⟩
  | case2 c tail hmatch ih =>
    intro col hs t ht
    rw [lexLine, hmatch] at ht
    rcases List.mem_cons.mp ht with rfl | hrec
    · refine ⟨rfl, Nat.le_refl _, ?_⟩
      show [c] = (line.drop (col + 1 - 1)).take [c].length
      rw [Nat.add_sub_cancel, hs]
      rfl
    · have hdrop : line.drop (col + 1) = tail := by
        rw [← List.drop_drop, hs]
        rfl
      obtain ⟨h1, h2, h3⟩ := ih (col + 1) hdrop t hrec
      exact ⟨h1, by omega, h3⟩
  | case3 =>
    intro col hs t ht
    rw [lexLine] at ht
    simp at ht

/-- Location invariant of the full lexer loop: tokens of `lexLines k lines`
carry a line number in `[k, k + lines.length)`, a 1-based column, and their
text is found in their physical line at offset `t.col - 1`. -/
theorem lexLines_meta (lines : List (List Char)) :
    ∀ (k : Nat), ∀ t ∈ lexLines k lines, k ≤ t.line ∧ t.line < k + lines.length ∧
      1 ≤ t.col ∧
      t.value = ((lines.getD (t.line - k) []).drop (t.col - 1)).take t.value.length := by
  induction lines with
  | nil => intro k t ht; simp [lexLines] at ht
  | cons l ls ih =>
    intro k t ht
    rw [lexLines] at ht
    rcases List.mem_append.mp ht with hl | hr
    · obtain ⟨h1, h2, h3⟩ := lexLine_meta k l l 0 (by rfl) t hl
      subst h1
      refine ⟨Nat.le_refl _, by simp, by omega, ?_⟩
      simpa using h3
    · obtain ⟨h1, h2, h3, h4⟩ := ih (k + 1) t hr
      refine ⟨by omega, by simp only [List.length_cons]; omega, h3, ?_⟩
      have : t.line - k = (t.line - (k + 1)) + 1 := by omega
      rw [this, List.getD_cons_succ]
      exact h4

/-- The forward scan can only stop at a semicolon or a brace. -/
theorem findStop_mem : ∀ (ts : List Token) (ty : TokenType), findStop ts = some ty →
    ty = TokenType.SEMICOLON ∨ ty = TokenType.LBRACE ∨ ty = TokenType.RBRACE := by
  intro ts
  induction ts with
  | nil => intro ty h; simp [findStop] at h
  | cons t r ih =>
    intro ty h
    unfold findStop at h
    split at h
    · rename_i hty
      cases h
      exact hty
    · exact ih ty h

/-- Unfolding of `specDelimScan` on the empty token list. -/
theorem specDelimScan_nil (stack : List (TokenType × Token)) :
    specDelimScan [] stack =
      stack.reverse.map (fun p => Diag.unclosed p.2.value p.2.line) := by
  rw [specDelimScan.eq_def]

/-- Unfolding of `specDelimScan` on an opening delimiter. -/
theorem specDelimScan_open {t : Token} (ts : List Token)
    (stack : List (TokenType × Token)) (h : isOpening t.type) :
    specDelimScan (t :: ts) stack = specDelimScan ts ((t.type, t) :: stack) := by
  rw [specDelimScan.eq_def]
  simp [h]

/-- Unfolding of `specDelimScan` on a closing delimiter with empty stack. -/
theorem specDelimScan_close_nil {t : Token} (ts : List Token)
    (ho : ¬ isOpening t.type) (hc : isClosing t.type) :
    specDelimScan (t :: ts) [] =
      Diag.unmatchedClosing t.value t.line :: specDelimScan ts [] := by
  rw [specDelimScan.eq_def]
  simp [ho, hc]

/-- Unfolding of `specDelimScan` on a closing delimiter with nonempty stack. -/
theorem specDelimScan_close_cons {t : Token} (ts : List Token) (ot : TokenType)
    (otok : Token) (rest : List (TokenType × Token))
    (ho : ¬ isOpening t.type) (hc : isClosing t.type) :
    specDelimScan (t :: ts) ((ot, otok) :: rest) =
      if pairsClose ot ≠ some t.type then
        Diag.mismatched otok.value otok.line t.value t.line :: specDelimScan ts rest
      else specDelimScan ts rest := by
  rw [specDelimScan.eq_def]
  simp [ho, hc]

/-- Unfolding of `specDelimScan` on a non-delimiter token. -/
theorem specDelimScan_other {t : Token} (ts : List Token)
    (stack : List (TokenType × Token))
    (ho : ¬ isOpening t.type) (hc : ¬ isClosing t.type) :
    specDelimScan (t :: ts) stack = specDelimScan ts stack := by
  rw [specDelimScan.eq_def]
  simp [ho, hc]

/-- The foldl form of the delimiter scan agrees with the recursive
specification-style scan, for every starting error list and stack. -/
theorem balance_fold_spec : ∀ (ts : List Token) (errs : List Diag)
    (stack : List (TokenType × Token)),
    (ts.foldl balStep (errs, stack)).1 ++
      ((ts.foldl balStep (errs, stack)).2.reverse.map
        (fun p => Diag.unclosed p.2.value p.2.line)) =
      errs ++ specDelimScan ts stack := by
  intro ts
  induction ts with
  | nil => intro errs stack; simp [specDelimScan_nil]
  | cons t ts ih =>
    intro errs stack
    rw [List.foldl_cons]
    by_cases hopen : isOpening t.type
    · have hb : balStep (errs, stack) t = (errs, (t.type, t) :: stack) := by
        simp [balStep, hopen]
      rw [hb, ih, specDelimScan_open ts stack hopen]
    · by_cases hclose : isClosing t.type
      · cases stack with
        | nil =>
          have hb : balStep (errs, ([] : List (TokenType × Token))) t =
              (errs ++ [Diag.unmatchedClosing t.value t.line], []) := by
            simp [balStep, hopen, hclose]
          rw [hb, ih, specDelimScan_close_nil ts hopen hclose]
          simp
        | cons p rest =>
          obtain ⟨ot, otok⟩ := p
          by_cases hp : pairsClose ot = some t.type
          · have hb : balStep (errs, (ot, otok) :: rest) t = (errs, rest) := by
              simp [balStep, hopen, hclose, hp]
            rw [hb, ih, specDelimScan_close_cons ts ot otok rest hopen hclose]
            simp [hp]
          · have hb : balStep (errs, (ot, otok) :: rest) t =
                (errs ++ [Diag.mismatched otok.value otok.line t.value t.line], rest) := by
              simp [balStep, hopen, hclose, hp]
            rw [hb, ih, specDelimScan_close_cons ts ot otok rest hopen hclose]
            simp [hp]
      · have hb : balStep (errs, stack) t = (errs, stack) := by
          simp [balStep, hopen, hclose]
        rw [hb, ih, specDelimScan_other ts stack hopen hclose]

end ParserTask

namespace ScannerTask

theorem matchComments_pos {s : List Char} {n : Nat} (h : matchComments s = some n) :
    0 < n := by
  unfold matchComments at h
  split at h
  · simp only [Option.some.injEq] at h
    omega
  · rcases Option.map_eq_some'.mp h with ⟨m, _, hm⟩
    omega
  · exact absurd h (by simp)

theorem matchCharConst_pos {s : List Char} {n : Nat} (h : matchCharConst s = some n) :
    0 < n := by
  unfold matchCharConst at h
  split at h <;> simp_all <;> omega

theorem matchSpecial_pos {s : List Char} {n : Nat} (h : matchSpecial s = some n) :
    0 < n := by
  unfold matchSpecial at h
  split at h
  · split at h <;> simp_all <;> omega
  · exact absurd h (by simp)

theorem matchNumeric_pos {s : List Char} {n : Nat} (h : matchNumeric s = some n) :
    0 < n := by
  simp only [matchNumeric] at h
  split at h
  · simp at h
  · split at h <;> (try split at h) <;> (try split at h)
    all_goals (try simp_all)
    all_goals omega

theorem firstAlt_mem : ∀ (alts : List (List Char)) (s : List Char) (n : Nat),
    firstAlt alts s = some n → ∃ a ∈ alts, n = a.length := by
  intro alts
  induction alts with
  | nil => intro s n h; simp [firstAlt] at h
  | cons a rest ih =>
    intro s n h
    unfold firstAlt at h
    split at h
    · simp only [Option.some.injEq] at h
      exact ⟨a, by simp, h.symm⟩
    · obtain ⟨b, hb, hn⟩ := ih s n h
      exact ⟨b, by simp [hb], hn⟩

theorem matchOperators_pos {s : List Char} {n : Nat} (h : matchOperators s = some n) :
    0 < n := by
  unfold matchOperators at h
  split at h
  · rename_i m hfa
    obtain ⟨a, ha, hn⟩ := firstAlt_mem opAlternatives s m hfa
    have hlen : ∀ a ∈ opAlternatives, 0 < a.length := by decide
    simp only [Option.some.injEq] at h
    subst h
    exact hn ▸ hlen a ha
  · split at h
    · split at h
      · split at h <;> simp_all <;> omega
      · exact absurd h (by simp)
    · exact absurd h (by simp)

theorem matchIdentifiers_pos {s : List Char} {n : Nat} (h : matchIdentifiers s = some n) :
    0 < n := by
  unfold matchIdentifiers at h
  split at h
  · split at h
    · simp only [Option.some.injEq] at h
      omega
    · exact absurd h (by simp)
  · exact absurd h (by simp)

theorem matchKeywords_go_mem (s : List Char) :
    ∀ (alts : List (List Char)) (n : Nat), matchKeywords.go s alts = some n →
      ∃ a ∈ alts, n = a.length := by
  intro alts
  induction alts with
  | nil => intro n h; simp [matchKeywords.go] at h
  | cons a rest ih =>
    intro n h
    unfold matchKeywords.go at h
    split at h
    · simp only [Option.some.injEq] at h
      exact ⟨a, by simp, h.symm⟩
    · obtain ⟨b, hb, hn⟩ := ih n h
      exact ⟨b, by simp [hb], hn⟩

theorem matchKeywords_pos {s : List Char} {n : Nat} (h : matchKeywords s = some n) :
    0 < n := by
  obtain ⟨a, ha, hn⟩ := matchKeywords_go_mem s keywordAlternatives n h
  have hlen : ∀ a ∈ keywordAlternatives, 0 < a.length := by decide
  exact hn ▸ hlen a ha

/-- Every group of the combined alternation consumes at least one character:
the scanning loop strictly advances at every step. -/
theorem scanMatchAt_pos (c : Char) (rest : List Char) :
    0 < (scanMatchAt c rest).1 := by
  have hgo : ∀ (p : Nat × SType), scanMatchAt c rest = p → 0 < p.1 := by
    intro p hp
    simp only [scanMatchAt] at hp
    split at hp
    · cases hp
      exact matchComments_pos (by assumption)
    · split at hp
      · cases hp
        exact matchCharConst_pos (by assumption)
      · split at hp
        · cases hp
          exact matchSpecial_pos (by assumption)
        · split at hp
          · cases hp
            exact matchNumeric_pos (by assumption)
          · split at hp
            · cases hp
              exact matchOperators_pos (by assumption)
            · split at hp
              · cases hp
                exact matchIdentifiers_pos (by assumption)
              · split at hp
                · cases hp
                  exact matchKeywords_pos (by assumption)
                · split at hp
                  · cases hp
                    simp
                  · split at hp
                    · cases hp
                      simp
                    · cases hp
                      simp
  exact hgo _ rfl

end ScannerTask

namespace ParserTask

/-- Every token the line scan emits carries nonempty matched text. -/
theorem lexLine_value_ne (lineNum : Nat) :
    ∀ (s : List Char) (col : Nat), ∀ t ∈ lexLine lineNum col s, t.value ≠ [] := by
  intro s
  induction s using lexChunks.induct with
  | case1 c tail n ty hmatch ih =>
    intro col t ht
    rw [lexLine, hmatch] at ht
    dsimp only at ht
    have hpos := matchAt_pos hmatch
    by_cases hws : classify ty ((c :: tail).take n) = TokenType.WHITESPACE
    · rw [if_pos hws] at ht
      exact ih (col + n) t ht
    · rw [if_neg hws] at ht
      rcases List.mem_cons.mp ht with rfl | hrec
      · show (c :: tail).take n ≠ []
        cases n with
        | zero => omega
        | succ m => simp
      · exact ih (col + n) t hrec
  | case2 c tail hmatch ih =>
    intro col t ht
    rw [lexLine, hmatch] at ht
    rcases List.mem_cons.mp ht with rfl | hrec
    · simp
    · exact ih (col + 1) t hrec
  | case3 =>
    intro col t ht
    rw [lexLine] at ht
    simp at ht

/-- Every token of the full lexer carries nonempty matched text. -/
theorem lexLines_value_ne :
    ∀ (lines : List (List Char)) (k : Nat), ∀ t ∈ lexLines k lines, t.value ≠ [] := by
  intro lines
  induction lines with
  | nil => intro k t ht; simp [lexLines] at ht
  | cons l ls ih =>
    intro k t ht
    rw [lexLines] at ht
    rcases List.mem_append.mp ht with hl | hr
    · exact lexLine_value_ne k l 0 t hl
    · exact ih (k + 1) t hr

end ParserTask

/-! ## Claim theorems -/

open ParserTask

/-- C1 (amended): in the statement-termination scan, for a `return`/`break`/
`continue` keyword the validator emits a missing-terminator diagnostic
exactly when the forward scan from the next position stops at a closing
brace; stopping at a semicolon or an opening brace, or exhausting the token
stream, emits no diagnostic. -/
theorem C1_missing_terminator_only_on_closing_brace
    (t : Token) (rest : List Token)
    (hty : t.type = TokenType.KEYWORD) (hv : t.value ∈ stmtKeywords) :
    check_statement_structure (t :: rest) =
      (if findStop rest = some TokenType.RBRACE
       then [Diag.missingSemicolon t.value t.line] else []) ++
      check_statement_structure rest := by
  have hne : t.type ≠ TokenType.PREPROCESSOR := by
    rw [hty]
    decide
  rw [check_statement_structure.eq_def]
  dsimp only
  rw [if_neg hne, if_pos ⟨hty, hv⟩]
  congr 1
  cases hf : findStop rest with
  | none => simp
  | some ty => rcases findStop_mem rest ty hf with rfl | rfl | rfl <;> simp

/-- C1 witness: `return` followed by a closing brace is diagnosed. -/
theorem C1_missing_terminator_witness :
    check_statement_structure
      [⟨TokenType.KEYWORD, "return".toList, 1, 1⟩, ⟨TokenType.RBRACE, ['\x7d'], 1, 8⟩] =
      (if findStop [⟨TokenType.RBRACE, ['\x7d'], 1, 8⟩] = some TokenType.RBRACE
       then [Diag.missingSemicolon "return".toList 1] else []) ++
      check_statement_structure [⟨TokenType.RBRACE, ['\x7d'], 1, 8⟩] :=
  C1_missing_terminator_only_on_closing_brace _ _ rfl (by decide)

/-- C1 counterexample: the claim predicts a missing-terminator diagnostic
when the forward scan stops at an opening brace or exhausts the stream, but
the code emits none in either situation (`return {` and a trailing bare
`return` both pass silently). -/
theorem C1_counterexample :
    findStop [(⟨TokenType.LBRACE, ['\x7b'], 1, 10⟩ : Token)] = some TokenType.LBRACE ∧
    check_statement_structure
      [⟨TokenType.KEYWORD, "return".toList, 1, 3⟩, ⟨TokenType.LBRACE, ['\x7b'], 1, 10⟩] = [] ∧
    findStop ([] : List Token) = none ∧
    check_statement_structure [⟨TokenType.KEYWORD, "return".toList, 1, 3⟩] = [] := by
  decide

/-- C2: on the failing input `/*` newline `*/`, the line-splitting lexer of
`parserTask.py` tokenizes the opener and closer as two `OPERATOR` tokens
instead of one multi-line comment token, and the scanner of
`scannerTask.py` does produce one comment token for `/*` newline `*/` but
fails to advance the line counter across it (the following `x` reports
line 1 instead of line 2). -/
theorem C2_multiline_block_comment_behavior :
    tokenize "/*\n*/".toList =
      [⟨TokenType.OPERATOR, ['/', '*'], 1, 1⟩, ⟨TokenType.OPERATOR, ['*', '/'], 2, 1⟩] ∧
    ScannerTask.tokenize "/*\n*/x".toList =
      [⟨ScannerTask.SType.Comments, "/*\n*/".toList, 1, 0⟩,
       ⟨ScannerTask.SType.Identifiers, ['x'], 1, 5⟩] := by
  constructor
  · simp only [tokenize]
    simp +decide [splitLines, lexLines, lexLine, matchAt, firstMatch, tokenPatterns,
      matchPreprocLen, matchLineCommentLen, matchBlockCommentLen, findCloseLen,
      matchStringLen, stringBodyLen, matchCharLen, matchNumberLen, matchExpLen,
      countDigits, matchIdentLen, matchIdentLen.countWord, matchOpLen,
      matchColonsLen, matchArrowLen, matchLitLen, matchWsLen, countSpaces,
      classify, keywords, datatypes, boundaryAfter, isDigitChar, isWordChar,
      isIdentStart, isSpaceChar, isOpChar]
  · simp +decide [ScannerTask.tokenize, ScannerTask.scanGo, ScannerTask.scanMatchAt,
      ScannerTask.scanMatchAt.countTab, ScannerTask.matchComments,
      ScannerTask.lineCommentLen, ScannerTask.findCloseLen, ScannerTask.matchCharConst,
      ScannerTask.matchSpecial, ScannerTask.matchNumeric, ScannerTask.countDigits,
      ScannerTask.matchOperators, ScannerTask.firstAlt, ScannerTask.opAlternatives,
      ScannerTask.isOpClassChar, ScannerTask.matchIdentifiers,
      ScannerTask.matchIdentifiers.countWord, ScannerTask.matchKeywords,
      ScannerTask.matchKeywords.go, ScannerTask.keywordAlternatives,
      matchExpLen, countDigits, boundaryAfter, isDigitChar, isWordChar,
      isIdentStart, isSpaceChar]

/-- C3 (amended, for the `parserTask.py` lexer): the consumed chunks of every
line concatenate back to the whole input (no character is dropped), the
emitted tokens are exactly the non-skipped chunks, every skipped chunk is a
whitespace run, and an input matching no pattern yields a one-character
`UNKNOWN` token.  (The `scannerTask.py` tokenizer violates the original
claim: see the counterexample.) -/
theorem C3_no_character_dropped :
    (∀ code : List Char,
       joinLines ((splitLines code).map (fun l => ((lexChunks l).map Prod.fst).flatten)) =
         code) ∧
    (∀ (lineNum col : Nat) (s : List Char),
       (lexLine lineNum col s).map Token.value =
         ((lexChunks s).filter Prod.snd).map Prod.fst) ∧
    (∀ (s ch : List Char), (ch, false) ∈ lexChunks s → ch.all isSpaceChar) ∧
    (∀ (lineNum col : Nat) (c : Char) (rest : List Char), matchAt (c :: rest) = none →
       lexLine lineNum col (c :: rest) =
         ⟨TokenType.UNKNOWN, [c], lineNum, col + 1⟩ :: lexLine lineNum (col + 1) rest) := by
  refine ⟨?_, lexLine_values, lexChunks_skip, lexLine_unmatched⟩
  intro code
  calc joinLines ((splitLines code).map (fun l => ((lexChunks l).map Prod.fst).flatten))
      = joinLines (splitLines code) := by
        rw [List.map_congr_left (fun l _ => lexChunks_flatten l), List.map_id']
    _ = code := joinLines_splitLines code

/-- C3 witness: the unmatched character `@` becomes a one-character `UNKNOWN`
token. -/
theorem C3_no_character_dropped_witness :
    lexLine 1 0 ['@'] = ⟨TokenType.UNKNOWN, ['@'], 1, 1⟩ :: lexLine 1 1 [] :=
  C3_no_character_dropped.2.2.2 1 0 '@' [] (by decide)

/-- C3 counterexample: `scannerTask.py`'s tokenize drops the unrecognized
character `@` entirely (it prints a message and appends no token), so the
non-whitespace character `@` is accounted for by no token at all. -/
theorem C3_counterexample : ScannerTask.tokenize ['@'] = [] := by
  simp +decide [ScannerTask.tokenize, ScannerTask.scanGo, ScannerTask.scanMatchAt,
    ScannerTask.scanMatchAt.countTab, ScannerTask.matchComments,
    ScannerTask.lineCommentLen, ScannerTask.findCloseLen, ScannerTask.matchCharConst,
    ScannerTask.matchSpecial, ScannerTask.matchNumeric, ScannerTask.countDigits,
    ScannerTask.matchOperators, ScannerTask.firstAlt, ScannerTask.opAlternatives,
    ScannerTask.isOpClassChar, ScannerTask.matchIdentifiers,
    ScannerTask.matchIdentifiers.countWord, ScannerTask.matchKeywords,
    ScannerTask.matchKeywords.go, ScannerTask.keywordAlternatives,
    matchExpLen, countDigits, boundaryAfter, isDigitChar, isWordChar,
    isIdentStart, isSpaceChar]

/-- C4 (amended): every token of the `parserTask.py` lexer carries a 1-based
line number bounded by the number of physical lines and a 1-based column,
and its text occurs in its physical line at 0-based offset `col - 1`; the
`scannerTask.py` tokenizer instead assigns 0-based columns (offsets from the
most recent newline), as its output on input `a` shows. -/
theorem C4_token_positions :
    (∀ code : List Char, ∀ t ∈ tokenize code,
       1 ≤ t.line ∧ t.line ≤ (splitLines code).length ∧ 1 ≤ t.col ∧
       t.value = (((splitLines code).getD (t.line - 1) []).drop (t.col - 1)).take
         t.value.length) ∧
    ScannerTask.tokenize ['a'] = [⟨ScannerTask.SType.Identifiers, ['a'], 1, 0⟩] := by
  constructor
  · intro code t ht
    obtain ⟨h1, h2, h3, h4⟩ := lexLines_meta (splitLines code) 1 t ht
    exact ⟨h1, by omega, h3, h4⟩
  · simp +decide [ScannerTask.tokenize, ScannerTask.scanGo, ScannerTask.scanMatchAt,
      ScannerTask.scanMatchAt.countTab, ScannerTask.matchComments,
      ScannerTask.lineCommentLen, ScannerTask.findCloseLen, ScannerTask.matchCharConst,
      ScannerTask.matchSpecial, ScannerTask.matchNumeric, ScannerTask.countDigits,
      ScannerTask.matchOperators, ScannerTask.firstAlt, ScannerTask.opAlternatives,
      ScannerTask.isOpClassChar, ScannerTask.matchIdentifiers,
      ScannerTask.matchIdentifiers.countWord, ScannerTask.matchKeywords,
      ScannerTask.matchKeywords.go, ScannerTask.keywordAlternatives,
      matchExpLen, countDigits, boundaryAfter, isDigitChar, isWordChar,
      isIdentStart, isSpaceChar]

/-- C4 witness: the single token of input `a` satisfies the parser-task
position contract. -/
theorem C4_token_positions_witness :
    1 ≤ (1 : Nat) ∧ 1 ≤ (splitLines ['a']).length ∧ 1 ≤ (1 : Nat) ∧
      (['a'] : List Char) = (((splitLines ['a']).getD 0 []).drop 0).take 1 := by
  have he : tokenize ['a'] = [⟨TokenType.IDENTIFIER, ['a'], 1, 1⟩] := by
    simp only [tokenize]
    simp +decide [splitLines, lexLines, lexLine, matchAt, firstMatch, tokenPatterns,
      matchPreprocLen, matchLineCommentLen, matchBlockCommentLen, findCloseLen,
      matchStringLen, stringBodyLen, matchCharLen, matchNumberLen, matchExpLen,
      countDigits, matchIdentLen, matchIdentLen.countWord, matchOpLen,
      matchColonsLen, matchArrowLen, matchLitLen, matchWsLen, countSpaces,
      classify, keywords, datatypes, boundaryAfter, isDigitChar, isWordChar,
      isIdentStart, isSpaceChar, isOpChar]
  have h := C4_token_positions.1 ['a'] ⟨TokenType.IDENTIFIER, ['a'], 1, 1⟩
    (by rw [he]; simp)
  simpa using h

/-- C4 counterexample: on input `a` the scanner of `scannerTask.py` reports
the token at column 0, while the 1-based column of its first character is 1
— scanner columns are 0-based, refuting the claim for `scannerTask.py`. -/
theorem C4_counterexample :
    (ScannerTask.tokenize ['a']).map ScannerTask.SToken.column = [0] := by
  simp +decide [ScannerTask.tokenize, ScannerTask.scanGo, ScannerTask.scanMatchAt,
    ScannerTask.scanMatchAt.countTab, ScannerTask.matchComments,
    ScannerTask.lineCommentLen, ScannerTask.findCloseLen, ScannerTask.matchCharConst,
    ScannerTask.matchSpecial, ScannerTask.matchNumeric, ScannerTask.countDigits,
    ScannerTask.matchOperators, ScannerTask.firstAlt, ScannerTask.opAlternatives,
    ScannerTask.isOpClassChar, ScannerTask.matchIdentifiers,
    ScannerTask.matchIdentifiers.countWord, ScannerTask.matchKeywords,
    ScannerTask.matchKeywords.go, ScannerTask.keywordAlternatives,
    matchExpLen, countDigits, boundaryAfter, isDigitChar, isWordChar,
    isIdentStart, isSpaceChar]

/-- C5: the delimiter balance scan of `check_balanced_delimiters` equals the
single-pass stack algorithm the specification describes: push openers, report
an unmatched closing delimiter on a closer against the empty stack, report a
mismatched pair naming both locations when the popped opener's expected
closer differs, and after the scan report one unclosed-delimiter diagnostic
per remaining entry, oldest opener first. -/
theorem C5_delimiter_stack_scan : ∀ ts : List Token,
    check_balanced_delimiters ts = specDelimScan ts [] := by
  intro ts
  have h := balance_fold_spec ts [] []
  rw [List.nil_append] at h
  unfold check_balanced_delimiters
  rcases hfold : ts.foldl balStep ([], []) with ⟨e, st⟩
  rw [hfold] at h
  exact h

/-- C6: `validate` is a total function (by construction in this embedding),
its boolean verdict is true exactly when its diagnostic list is empty, and
its diagnostics are the concatenation, in fixed order, of the unknown-token
scan, the delimiter balance scan and the statement-termination scan over the
comment-filtered tokens. -/
theorem C6_validate_total_fixed_order : ∀ tokens : List Token,
    ((validate tokens).1 = true ↔ (validate tokens).2 = []) ∧
    (validate tokens).2 =
      unknownScan (removeComments tokens) ++
      check_balanced_delimiters (removeComments tokens) ++
      check_statement_structure (removeComments tokens) := by
  intro tokens
  refine ⟨?_, rfl⟩
  simp [validate]

/-- C7: validating the token sequence of `foo(a, b]` yields exactly one
diagnostic, the mismatched-delimiters diagnostic pairing the `(` token
(line 1) with the `]` token (line 1). -/
theorem C7_mismatch_detection :
    validate (tokenize "foo(a, b]".toList) =
      (false, [Diag.mismatched ['('] 1 [']'] 1]) := by
  have he : tokenize "foo(a, b]".toList =
      [⟨TokenType.IDENTIFIER, "foo".toList, 1, 1⟩,
       ⟨TokenType.LPAREN, ['('], 1, 4⟩,
       ⟨TokenType.IDENTIFIER, ['a'], 1, 5⟩,
       ⟨TokenType.COMMA, [','], 1, 6⟩,
       ⟨TokenType.IDENTIFIER, ['b'], 1, 8⟩,
       ⟨TokenType.RBRACKET, [']'], 1, 9⟩] := by
    simp only [tokenize]
    simp +decide [splitLines, lexLines, lexLine, matchAt, firstMatch, tokenPatterns,
      matchPreprocLen, matchLineCommentLen, matchBlockCommentLen, findCloseLen,
      matchStringLen, stringBodyLen, matchCharLen, matchNumberLen, matchExpLen,
      countDigits, matchIdentLen, matchIdentLen.countWord, matchOpLen,
      matchColonsLen, matchArrowLen, matchLitLen, matchWsLen, countSpaces,
      classify, keywords, datatypes, boundaryAfter, isDigitChar, isWordChar,
      isIdentStart, isSpaceChar, isOpChar]
  rw [he]
  decide

/-- C8: tokenization always makes strict progress — every successful pattern
match of the parser-task dispatch consumes at least one character, every
emitted token carries nonempty text, and every step of the scanner-task
combined alternation consumes at least one character (its fallback group
matches exactly one) — so tokenizing a finite input terminates. -/
theorem C8_tokenize_progress :
    (∀ (c : Char) (rest : List Char) (n : Nat) (ty : TokenType),
        matchAt (c :: rest) = some (n, ty) → 0 < n) ∧
    (∀ code : List Char, ∀ t ∈ tokenize code, t.value ≠ []) ∧
    (∀ (c : Char) (rest : List Char), 0 < (ScannerTask.scanMatchAt c rest).1) := by
  refine ⟨fun c rest n ty h => matchAt_pos h, ?_,
    fun c rest => ScannerTask.scanMatchAt_pos c rest⟩
  intro code t ht
  exact lexLines_value_ne (splitLines code) 1 t ht

/-- C8 witness: the dispatch matches one character of input `a`. -/
theorem C8_tokenize_progress_witness :
    matchAt ['a'] = some (1, TokenType.IDENTIFIER) ∧ 0 < 1 :=
  ⟨by decide, C8_tokenize_progress.1 'a' [] 1 TokenType.IDENTIFIER (by decide)⟩

/-- C9: a lone `.` and a lone `:` are tokenized as `UNKNOWN` although `.` and
`::` belong to the Lexer's static operator vocabulary, and a source using
member access such as `a.b` fails validation with an unknown-token
diagnostic. -/
theorem C9_dot_colon_unknown :
    tokenize ['.'] = [⟨TokenType.UNKNOWN, ['.'], 1, 1⟩] ∧
    tokenize [':'] = [⟨TokenType.UNKNOWN, [':'], 1, 1⟩] ∧
    ['.'] ∈ operators ∧ [':', ':'] ∈ operators ∧
    validate (tokenize "a.b".toList) = (false, [Diag.unknownToken ['.'] 1 2]) := by
  refine ⟨?_, ?_, by decide, by decide, ?_⟩
  · simp only [tokenize]
    simp +decide [splitLines, lexLines, lexLine, matchAt, firstMatch, tokenPatterns,
      matchPreprocLen, matchLineCommentLen, matchBlockCommentLen, findCloseLen,
      matchStringLen, stringBodyLen, matchCharLen, matchNumberLen, matchExpLen,
      countDigits, matchIdentLen, matchIdentLen.countWord, matchOpLen,
      matchColonsLen, matchArrowLen, matchLitLen, matchWsLen, countSpaces,
      classify, keywords, datatypes, boundaryAfter, isDigitChar, isWordChar,
      isIdentStart, isSpaceChar, isOpChar]
  · simp only [tokenize]
    simp +decide [splitLines, lexLines, lexLine, matchAt, firstMatch, tokenPatterns,
      matchPreprocLen, matchLineCommentLen, matchBlockCommentLen, findCloseLen,
      matchStringLen, stringBodyLen, matchCharLen, matchNumberLen, matchExpLen,
      countDigits, matchIdentLen, matchIdentLen.countWord, matchOpLen,
      matchColonsLen, matchArrowLen, matchLitLen, matchWsLen, countSpaces,
      classify, keywords, datatypes, boundaryAfter, isDigitChar, isWordChar,
      isIdentStart, isSpaceChar, isOpChar]
  · have he : tokenize "a.b".toList =
        [⟨TokenType.IDENTIFIER, ['a'], 1, 1⟩,
         ⟨TokenType.UNKNOWN, ['.'], 1, 2⟩,
         ⟨TokenType.IDENTIFIER, ['b'], 1, 3⟩] := by
      simp only [tokenize]
      simp +decide [splitLines, lexLines, lexLine, matchAt, firstMatch, tokenPatterns,
        matchPreprocLen, matchLineCommentLen, matchBlockCommentLen, findCloseLen,
        matchStringLen, stringBodyLen, matchCharLen, matchNumberLen, matchExpLen,
        countDigits, matchIdentLen, matchIdentLen.countWord, matchOpLen,
        matchColonsLen, matchArrowLen, matchLitLen, matchWsLen, countSpaces,
        classify, keywords, datatypes, boundaryAfter, isDigitChar, isWordChar,
        isIdentStart, isSpaceChar, isOpChar]
    rw [he]
    decide

/-- C10: the validator's verdict and diagnostics are invariant under removal
of comment tokens from its input, because `Parser.__init__` filters comment
tokens before any pass runs. -/
theorem C10_comment_removal_invariant : ∀ ts : List Token,
    validate ts = validate (removeComments ts) := by
  intro ts
  have h : removeComments (removeComments ts) = removeComments ts := by
    simp [removeComments, List.filter_filter]
  simp [validate, parseErrors, h]
